import Mathlib

/-!
Verification of the streaming chat-completion handler
(`src/chat-stream-handler.ts`): the request shaper `getOpenAiRequestOptions`
and the stream decoder `openAiStreamingDataHandler`.

Strings are modelled as `List Char` (JS strings); byte streams as
`List Nat`.  The handler's callbacks `onIncomingChunk` / `onCloseStream`
are modelled as an event trace; a thrown JS error is modelled as an
`Except` error result.
-/

abbrev Str := List Char

/-- The JS `\s` / `String.prototype.trim` whitespace set (WhiteSpace plus
LineTerminator code points). -/
def jsWhitespace (c : Char) : Bool :=
  c = ' ' || c = '\t' || c = '\n' || c = '\r' ||
  c.toNat = 0x0B || c.toNat = 0x0C || c.toNat = 0xA0 || c.toNat = 0x1680 ||
  (0x2000 ≤ c.toNat && c.toNat ≤ 0x200A) ||
  c.toNat = 0x2028 || c.toNat = 0x2029 || c.toNat = 0x202F ||
  c.toNat = 0x205F || c.toNat = 0x3000 || c.toNat = 0xFEFF

/-- JS `String.prototype.trim`. -/
def trimJS (s : Str) : Str :=
  ((s.dropWhile jsWhitespace).reverse.dropWhile jsWhitespace).reverse

/-- Line 80: `lines[i].replace(/(\n)?^data:\s*/, '')`.  The regex has no `m`
flag, so the `^` assertion only matches at the start of the string; the
`(\n)?` group can therefore never consume a newline (after it matches, `^`
would be at index 1 and fail), and the regex is equivalent to
`/^data:\s*/`: strip a leading `data:` plus any following whitespace. -/
def stripData (s : Str) : Str :=
  if s.take 5 = "data:".data then (s.drop 5).dropWhile jsWhitespace else s

/-- Line 87: `.replace(/^`\s*/, '`')` applied to the content delta:
if the string starts with a backtick, the backtick plus any whitespace
run after it is replaced by a single backtick. -/
def collapseBacktick (s : Str) : Str :=
  match s with
  | '`' :: rest => '`' :: rest.dropWhile jsWhitespace
  | _ => s

/-- Line 76: `decodedData.split(/(\n){2}/)`.  JS `split` with a capturing
group splices the captured text (here always `"\n"`, the group's last
match) between the ordinary segments; segments are produced by a
left-to-right scan for non-overlapping `\n\n` occurrences.  Returns
(the segments before the final one, the final segment): the code
processes the first components and keeps the last as the new buffer. -/
def splitDN : Str → List Str × Str
  | [] => ([], [])
  | [c] => ([], [c])
  | c :: d :: rest2 =>
    if c = '\n' ∧ d = '\n' then
      (([] : Str) :: ['\n'] :: (splitDN rest2).1, (splitDN rest2).2)
    else
      match splitDN (d :: rest2) with
      | ([], r) => ([], c :: r)
      | (s :: ss, r) => ((c :: s) :: ss, r)

/- JSON values as produced by `JSON.parse`.  Numbers keep their source
lexeme: the handler never inspects a numeric value, only the presence and
shape of fields, so the lexeme is a faithful representation for every use
in this file.  Object fields keep every parsed pair in order; lookups take
the last occurrence of a key, matching `JSON.parse`'s
later-assignment-wins semantics for duplicate keys.  Arrays and object
field lists are given their own list types so that every traversal is
ordinary structural recursion. -/
mutual

inductive Json where
  | null : Json
  | bool (b : Bool) : Json
  | num (raw : Str) : Json
  | str (s : Str) : Json
  | arr (elems : JsonArr) : Json
  | obj (fields : JsonObj) : Json

inductive JsonArr where
  | nil : JsonArr
  | cons (hd : Json) (tl : JsonArr) : JsonArr

inductive JsonObj where
  | nil : JsonObj
  | cons (key : Str) (val : Json) (tl : JsonObj) : JsonObj

end

/-- Field lookup on a parsed JSON object: last occurrence wins. -/
def lookupLast : JsonObj → Str → Option Json
  | .nil, _ => none
  | .cons k2 v rest, k =>
    match lookupLast rest k with
    | some r => some r
    | none => if k2 = k then some v else none

/-- JS property read `x.name` for a non-null value: objects look the key
up, every other value has no such own property (`undefined`). -/
def propGet : Json → Str → Option Json
  | .obj fs, k => lookupLast fs k
  | _, _ => none

/-- JS indexing `x[0]` for a non-null value: arrays give the first
element, strings the first character, objects the `"0"` key; numbers and
booleans give `undefined`. -/
def idx0 : Json → Option Json
  | .arr l => match l with
    | .nil => none
    | .cons e _ => some e
  | .obj fs => lookupLast fs ['0']
  | .str s => match s with
    | [] => none
    | c :: _ => some (.str [c])
  | _ => none

/-- One JS member-access step: accessing a property of `undefined` or
`null` throws a TypeError; otherwise the accessor runs. -/
def jsAccess (v : Option Json) (f : Json → Option Json) : Except Unit (Option Json) :=
  match v with
  | none => .error ()
  | some .null => .error ()
  | some j => .ok (f j)

/-- Lines 85 and 89: the access chain `chunk.choices[0].delta.<name>`. -/
def deltaField (j : Json) (name : Str) : Except Unit (Option Json) :=
  match jsAccess (some j) (fun v => propGet v "choices".data) with
  | .error e => .error e
  | .ok v1 =>
    match jsAccess v1 idx0 with
    | .error e => .error e
    | .ok v2 =>
      match jsAccess v2 (fun v => propGet v "delta".data) with
      | .error e => .error e
      | .ok v3 => jsAccess v3 (fun v => propGet v name)

/-- The replacement character U+FFFD emitted by `TextDecoder` for
malformed byte sequences. -/
def replChar : Char := Char.ofNat 0xFFFD

mutual

/-- JS string coercion (as in `role += roleChunk`): an array joins its
elements with commas, with `null` rendered empty, per
`Array.prototype.toString`. -/
def jsToString : Json → Str
  | .null => "null".data
  | .bool true => "true".data
  | .bool false => "false".data
  | .num raw => raw
  | .str s => s
  | .arr l => jsToStringArr l
  | .obj _ => "[object Object]".data

def jsToStringArr : JsonArr → Str
  | .nil => []
  | .cons e .nil =>
    match e with
    | .null => []
    | x => jsToString x
  | .cons e (.cons e2 tl) =>
    (match e with
     | .null => []
     | x => jsToString x) ++ ',' :: jsToStringArr (.cons e2 tl)

end

/- ## The JSON parser (`JSON.parse`)

A recursive-descent parser over `List Char`, fueled (the fuel passed at
the top level always suffices: every recursive call consumes at least one
character first).  String escapes follow ECMA-404/ECMA-262; a lone
surrogate `\uXXXX` escape, which a JS string can hold but a Unicode
scalar cannot, is modelled as U+FFFD (no input in this development
contains one). -/

def jsonWsChar (c : Char) : Bool := c = ' ' || c = '\t' || c = '\n' || c = '\r'

def skipWs (s : Str) : Str := s.dropWhile jsonWsChar

def isJsonDigit (c : Char) : Bool := '0' ≤ c && c ≤ '9'

def hexVal (c : Char) : Option Nat :=
  if '0' ≤ c ∧ c ≤ '9' then some (c.toNat - '0'.toNat)
  else if 'a' ≤ c ∧ c ≤ 'f' then some (c.toNat - 'a'.toNat + 10)
  else if 'A' ≤ c ∧ c ≤ 'F' then some (c.toNat - 'A'.toNat + 10)
  else none

def parseHex4 (s : Str) : Option (Nat × Str) :=
  match s with
  | a :: b :: c :: d :: rest =>
    match hexVal a, hexVal b, hexVal c, hexVal d with
    | some x, some y, some z, some w => some (((x * 16 + y) * 16 + z) * 16 + w, rest)
    | _, _, _, _ => none
  | _ => none

/-- Parse a JSON string body after the opening quote, producing the
decoded characters and the text after the closing quote. -/
def parseStringBody : Nat → Str → Option (Str × Str)
  | 0, _ => none
  | fuel + 1, s =>
    match s with
    | [] => none
    | c :: rest =>
      if c = '"' then some ([], rest)
      else if c = '\\' then
        match rest with
        | [] => none
        | e :: rest2 =>
          if e = '"' ∨ e = '\\' ∨ e = '/' then
            (fun p => (e :: p.1, p.2)) <$> parseStringBody fuel rest2
          else if e = 'b' then
            (fun p => (Char.ofNat 0x08 :: p.1, p.2)) <$> parseStringBody fuel rest2
          else if e = 'f' then
            (fun p => (Char.ofNat 0x0C :: p.1, p.2)) <$> parseStringBody fuel rest2
          else if e = 'n' then
            (fun p => ('\n' :: p.1, p.2)) <$> parseStringBody fuel rest2
          else if e = 'r' then
            (fun p => ('\r' :: p.1, p.2)) <$> parseStringBody fuel rest2
          else if e = 't' then
            (fun p => ('\t' :: p.1, p.2)) <$> parseStringBody fuel rest2
          else if e = 'u' then
            match parseHex4 rest2 with
            | none => none
            | some (h, rest3) =>
              if 0xD800 ≤ h ∧ h ≤ 0xDBFF then
                match rest3 with
                | '\\' :: 'u' :: rest4 =>
                  match parseHex4 rest4 with
                  | some (l, rest5) =>
                    if 0xDC00 ≤ l ∧ l ≤ 0xDFFF then
                      (fun p => (Char.ofNat (0x10000 + (h - 0xD800) * 0x400 + (l - 0xDC00)) :: p.1, p.2)) <$>
                        parseStringBody fuel rest5
                    else
                      (fun p => (replChar :: p.1, p.2)) <$> parseStringBody fuel rest3
                  | none => (fun p => (replChar :: p.1, p.2)) <$> parseStringBody fuel rest3
                | _ => (fun p => (replChar :: p.1, p.2)) <$> parseStringBody fuel rest3
              else if 0xDC00 ≤ h ∧ h ≤ 0xDFFF then
                (fun p => (replChar :: p.1, p.2)) <$> parseStringBody fuel rest3
              else
                (fun p => (Char.ofNat h :: p.1, p.2)) <$> parseStringBody fuel rest3
          else none
      else if c.toNat < 0x20 then none
      else (fun p => (c :: p.1, p.2)) <$> parseStringBody fuel rest

def takeDigits (s : Str) : Str × Str := (s.takeWhile isJsonDigit, s.dropWhile isJsonDigit)

/-- JSON integer part: `0` or a nonzero digit followed by digits. -/
def parseIntLex (s : Str) : Option (Str × Str) :=
  match s with
  | [] => none
  | c :: rest =>
    if c = '0' then some (['0'], rest)
    else if '1' ≤ c ∧ c ≤ '9' then
      let p := takeDigits rest
      some (c :: p.1, p.2)
    else none

/-- JSON fraction part, optional; returns an empty lexeme when absent. -/
def parseFracLex (s : Str) : Option (Str × Str) :=
  match s with
  | '.' :: rest =>
    let p := takeDigits rest
    if p.1 = [] then none else some ('.' :: p.1, p.2)
  | _ => some ([], s)

/-- JSON exponent part, optional; returns an empty lexeme when absent. -/
def parseExpLex (s : Str) : Option (Str × Str) :=
  match s with
  | [] => some ([], [])
  | e :: rest =>
    if e = 'e' ∨ e = 'E' then
      let sr : Str × Str :=
        match rest with
        | '+' :: r => (['+'], r)
        | '-' :: r => (['-'], r)
        | _ => ([], rest)
      let p := takeDigits sr.2
      if p.1 = [] then none else some (e :: sr.1 ++ p.1, p.2)
    else some ([], e :: rest)

def parseNumberLex (s : Str) : Option (Str × Str) :=
  let ns : Str × Str :=
    match s with
    | '-' :: r => (['-'], r)
    | _ => ([], s)
  match parseIntLex ns.2 with
  | none => none
  | some (i, s2) =>
    match parseFracLex s2 with
    | none => none
    | some (f, s3) =>
      match parseExpLex s3 with
      | none => none
      | some (x, s4) => some (ns.1 ++ i ++ f ++ x, s4)

mutual

/-- Parse one JSON value at the head of the input (whitespace already
skipped), returning it with the remaining input. -/
def parseValue : Nat → Str → Option (Json × Str)
  | 0, _ => none
  | fuel + 1, s =>
    match s with
    | [] => none
    | c :: rest =>
      if c = '{' then
        match skipWs rest with
        | '}' :: r => some (.obj .nil, r)
        | s2 =>
          match parseMembers fuel s2 with
          | some (fs, r) => some (.obj fs, r)
          | none => none
      else if c = '[' then
        match skipWs rest with
        | ']' :: r => some (.arr .nil, r)
        | s2 =>
          match parseElements fuel s2 with
          | some (es, r) => some (.arr es, r)
          | none => none
      else if c = '"' then
        match parseStringBody (rest.length + 1) rest with
        | some (str, r) => some (.str str, r)
        | none => none
      else if c = 't' then
        if rest.take 3 = "rue".data then some (.bool true, rest.drop 3) else none
      else if c = 'f' then
        if rest.take 4 = "alse".data then some (.bool false, rest.drop 4) else none
      else if c = 'n' then
        if rest.take 3 = "ull".data then some (.null, rest.drop 3) else none
      else
        match parseNumberLex (c :: rest) with
        | some (lex, r) => some (.num lex, r)
        | none => none

/-- Parse the non-empty member list of an object up to the closing brace. -/
def parseMembers : Nat → Str → Option (JsonObj × Str)
  | 0, _ => none
  | fuel + 1, s =>
    match s with
    | '"' :: rest =>
      match parseStringBody (rest.length + 1) rest with
      | none => none
      | some (key, r1) =>
        match skipWs r1 with
        | ':' :: r2 =>
          match parseValue fuel (skipWs r2) with
          | none => none
          | some (v, r3) =>
            match skipWs r3 with
            | ',' :: r4 =>
              match parseMembers fuel (skipWs r4) with
              | some (fs, r5) => some (.cons key v fs, r5)
              | none => none
            | '}' :: r4 => some (.cons key v .nil, r4)
            | _ => none
        | _ => none
    | _ => none

/-- Parse the non-empty element list of an array up to the closing bracket. -/
def parseElements : Nat → Str → Option (JsonArr × Str)
  | 0, _ => none
  | fuel + 1, s =>
    match parseValue fuel s with
    | none => none
    | some (v, r1) =>
      match skipWs r1 with
      | ',' :: r2 =>
        match parseElements fuel (skipWs r2) with
        | some (es, r3) => some (.cons v es, r3)
        | none => none
      | ']' :: r2 => some (.cons v .nil, r2)
      | _ => none

end

/-- `JSON.parse`: one value, with surrounding whitespace, and nothing
else. -/
def jsonParse (s : Str) : Option Json :=
  match parseValue (s.length + 1) (skipWs s) with
  | some (j, r) => if skipWs r = [] then some j else none
  | none => none

/- ## The stream decoder -/

/-- Line 85: `chunk.choices[0].delta.content ?? ''` must be a string for
`.replace` to run; `??` turns `undefined` and `null` into `''`, and
calling `.replace` on any other non-string value throws a TypeError. -/
def contentString : Option Json → Except Unit Str
  | none => .ok []
  | some .null => .ok []
  | some (.str s) => .ok s
  | some _ => .error ()

/-- Line 89: `chunk.choices[0].delta.role ?? ''`. -/
def roleValue : Option Json → Json
  | none => .str []
  | some .null => .str []
  | some v => v

/-- Lines 85-89: extract the content delta (with the backtick transform)
and the role delta from a parsed frame; a TypeError from the member
accesses or from `.replace` is an error. -/
def frameDeltas (j : Json) : Except Unit (Str × Json) :=
  match deltaField j "content".data with
  | .error e => .error e
  | .ok craw =>
    match contentString craw with
    | .error e => .error e
    | .ok cs =>
      match deltaField j "role".data with
      | .error e => .error e
      | .ok rraw => .ok (collapseBacktick cs, roleValue rraw)

/-- The errors the handler can throw: a non-2XX response (line 50), a
missing body (line 57), a `JSON.parse` SyntaxError (line 83), and a
TypeError from the delta accesses (lines 85-89). -/
inductive HErr where
  | transport (status : Nat) (statusText : Str) : HErr
  | noBody : HErr
  | parse : HErr
  | access : HErr
deriving DecidableEq

/-- The mutable accumulators of one session: `content`, `role` (lines
60-61) and the `onIncomingChunk` calls made so far, in order. -/
structure SessAcc where
  content : Str
  role : Str
  events : List (Str × Json)

/-- Lines 80-95: process one complete segment from the split: strip the
`data:` marker and trim; skip empty segments and the `[DONE]` terminal
marker; otherwise parse the JSON payload, extract the deltas, accumulate
them and record the `onIncomingChunk` call. -/
def processSeg (acc : SessAcc) (seg : Str) : Except HErr SessAcc :=
  let t := trimJS (stripData seg)
  if t = [] then .ok acc
  else if t = "[DONE]".data then .ok acc
  else
    match jsonParse t with
    | none => .error .parse
    | some j =>
      match frameDeltas j with
      | .error _ => .error .access
      | .ok (c, r) =>
        .ok ⟨acc.content ++ c, acc.role ++ jsToString r, acc.events ++ [(c, r)]⟩

/-- Lines 79-96: the `for` loop over the complete segments of one split;
a thrown error aborts the whole handler, keeping the callbacks already
made. -/
def processSegs (acc : SessAcc) : List Str → SessAcc × Option HErr
  | [] => (acc, none)
  | seg :: rest =>
    match processSeg acc seg with
    | .ok acc2 => processSegs acc2 rest
    | .error e => (acc, some e)

/-- Lines 67-101: the read loop.  Each text chunk is appended to the
buffer (`decodedData`), the buffer is split on the double-newline
pattern, the complete segments are processed and the final segment
becomes the new buffer; the loop ends when the source is exhausted, and
a thrown error ends the whole handler at once. -/
def decodeLoop (buf : Str) (acc : SessAcc) : List Str → SessAcc × Option HErr
  | [] => (acc, none)
  | chunk :: rest =>
    let p := splitDN (buf ++ chunk)
    match processSegs acc p.1 with
    | (acc2, none) => decodeLoop p.2 acc2 rest
    | (acc2, some e) => (acc2, some e)

/- ## UTF-8 decoding (`new TextDecoder().decode(value)`, line 72)

The WHATWG UTF-8 decoder with replacement: malformed sequences produce
U+FFFD, an offending byte is reconsidered as a fresh sequence start, and
a sequence truncated by the end of the input produces one U+FFFD.  The
handler constructs a fresh, non-streaming decoder for every chunk, so a
multi-byte character split across two chunks is decoded as replacement
characters. -/

def contByte (b : Nat) : Bool := 0x80 ≤ b && b ≤ 0xBF

/-- Lower bound for the first continuation byte of a three-byte sequence. -/
def cont3lo (b : Nat) : Nat := if b = 0xE0 then 0xA0 else 0x80

/-- Upper bound for the first continuation byte of a three-byte sequence. -/
def cont3hi (b : Nat) : Nat := if b = 0xED then 0x9F else 0xBF

/-- Lower bound for the first continuation byte of a four-byte sequence. -/
def cont4lo (b : Nat) : Nat := if b = 0xF0 then 0x90 else 0x80

/-- Upper bound for the first continuation byte of a four-byte sequence. -/
def cont4hi (b : Nat) : Nat := if b = 0xF4 then 0x8F else 0xBF

def utf8Decode : List Nat → List Char
  | [] => []
  | b :: rest =>
    if b ≤ 0x7F then Char.ofNat b :: utf8Decode rest
    else if 0xC2 ≤ b ∧ b ≤ 0xDF then
      match rest with
      | [] => [replChar]
      | c1 :: rest1 =>
        if contByte c1 then
          Char.ofNat ((b - 0xC0) * 64 + (c1 - 0x80)) :: utf8Decode rest1
        else replChar :: utf8Decode (c1 :: rest1)
    else if 0xE0 ≤ b ∧ b ≤ 0xEF then
      match rest with
      | [] => [replChar]
      | c1 :: rest1 =>
        if cont3lo b ≤ c1 ∧ c1 ≤ cont3hi b then
          match rest1 with
          | [] => [replChar]
          | c2 :: rest2 =>
            if contByte c2 then
              Char.ofNat ((b - 0xE0) * 4096 + (c1 - 0x80) * 64 + (c2 - 0x80)) :: utf8Decode rest2
            else replChar :: utf8Decode (c2 :: rest2)
        else replChar :: utf8Decode (c1 :: rest1)
    else if 0xF0 ≤ b ∧ b ≤ 0xF4 then
      match rest with
      | [] => [replChar]
      | c1 :: rest1 =>
        if cont4lo b ≤ c1 ∧ c1 ≤ cont4hi b then
          match rest1 with
          | [] => [replChar]
          | c2 :: rest2 =>
            if contByte c2 then
              match rest2 with
              | [] => [replChar]
              | c3 :: rest3 =>
                if contByte c3 then
                  Char.ofNat ((b - 0xF0) * 262144 + (c1 - 0x80) * 4096 +
                    (c2 - 0x80) * 64 + (c3 - 0x80)) :: utf8Decode rest3
                else replChar :: utf8Decode (c3 :: rest3)
            else replChar :: utf8Decode (c2 :: rest2)
        else replChar :: utf8Decode (c1 :: rest1)
    else replChar :: utf8Decode rest

/-- UTF-8 encoding of one character. -/
def utf8EncodeChar (c : Char) : List Nat :=
  let n := c.toNat
  if n < 0x80 then [n]
  else if n < 0x800 then [0xC0 + n / 64, 0x80 + n % 64]
  else if n < 0x10000 then
    [0xE0 + n / 4096, 0x80 + n / 64 % 64, 0x80 + n % 64]
  else
    [0xF0 + n / 262144, 0x80 + n / 4096 % 64, 0x80 + n / 64 % 64, 0x80 + n % 64]

def utf8Encode (s : Str) : List Nat := (s.map utf8EncodeChar).flatten

/- ## The handler -/

/-- The observable callback history of one session: `onIncomingChunk`
calls (content delta, role delta) and the final `onCloseStream` call. -/
inductive CallEvent where
  | chunk (content : Str) (role : Json) : CallEvent
  | close (beforeTimestamp : Nat) : CallEvent

/-- The final value: `return { content, role }` (line 105). -/
structure ChatMessage where
  content : Str
  role : Str
deriving DecidableEq

/-- The transport response handed to the handler by `fetch`: an HTTP
status with its description, and the body as the chunk sequence its
reader will yield (or no body at all). -/
structure FetchResponse where
  status : Nat
  statusText : Str
  body : Option (List (List Nat))

/-- `response.ok`: status in the inclusive range 200-299. -/
def responseOk (r : FetchResponse) : Bool := 200 ≤ r.status && r.status ≤ 299

def chunkEvents (evs : List (Str × Json)) : List CallEvent :=
  evs.map (fun e => .chunk e.1 e.2)

/-- Lines 60-105: read loop plus wrap-up.  Each byte chunk is decoded by
a fresh `TextDecoder`; on success `onCloseStream(beforeTimestamp)` fires
once after the source is exhausted and the accumulated message is
returned; a thrown error ends the session with the callbacks made so
far and no close call. -/
def handlerCore (byteChunks : List (List Nat)) (beforeTimestamp : Nat) :
    List CallEvent × Except HErr ChatMessage :=
  match decodeLoop [] ⟨[], [], []⟩ (byteChunks.map utf8Decode) with
  | (acc, some e) => (chunkEvents acc.events, .error e)
  | (acc, none) => (chunkEvents acc.events ++ [.close beforeTimestamp], .ok ⟨acc.content, acc.role⟩)

/-- Lines 37-106: `openAiStreamingDataHandler`.  `beforeTimestamp` is the
`Date.now()` value recorded at entry (line 43), before the request is
issued.  A non-OK response throws before any read (lines 49-53); a
missing body throws before any read (lines 56-58); otherwise the read
loop runs over the body's chunks. -/
def openAiStreamingDataHandler (resp : FetchResponse) (beforeTimestamp : Nat) :
    List CallEvent × Except HErr ChatMessage :=
  if responseOk resp then
    match resp.body with
    | none => ([], .error .noBody)
    | some chunks => handlerCore chunks beforeTimestamp
  else ([], .error (.transport resp.status resp.statusText))

/- ## The request shaper (`getOpenAiRequestOptions`, lines 11-29) -/

def toHexDigit (n : Nat) : Char :=
  if n < 10 then Char.ofNat ('0'.toNat + n) else Char.ofNat ('a'.toNat + n - 10)

/-- `JSON.stringify` escaping of one string character. -/
def escapeJsonChar (c : Char) : Str :=
  if c = '"' then ['\\', '"']
  else if c = '\\' then ['\\', '\\']
  else if c = '\n' then ['\\', 'n']
  else if c = '\r' then ['\\', 'r']
  else if c = '\t' then ['\\', 't']
  else if c.toNat = 0x08 then ['\\', 'b']
  else if c.toNat = 0x0C then ['\\', 'f']
  else if c.toNat < 0x20 then
    ['\\', 'u', '0', '0', toHexDigit (c.toNat / 16), toHexDigit (c.toNat % 16)]
  else [c]

def escapeJson (s : Str) : Str := (s.map escapeJsonChar).flatten

mutual

/-- `JSON.stringify` on a parsed-JSON value. -/
def jsonStringify : Json → Str
  | .null => "null".data
  | .bool true => "true".data
  | .bool false => "false".data
  | .num raw => raw
  | .str s => '"' :: escapeJson s ++ ['"']
  | .arr l => '[' :: stringifyArr l ++ [']']
  | .obj fs => '{' :: stringifyObj fs ++ ['}']

def stringifyArr : JsonArr → Str
  | .nil => []
  | .cons e .nil => jsonStringify e
  | .cons e (.cons e2 tl) => jsonStringify e ++ ',' :: stringifyArr (.cons e2 tl)

def stringifyObj : JsonObj → Str
  | .nil => []
  | .cons k v .nil => '"' :: escapeJson k ++ '"' :: ':' :: jsonStringify v
  | .cons k v (.cons k2 v2 tl) =>
    '"' :: escapeJson k ++ '"' :: ':' :: jsonStringify v ++ ',' :: stringifyObj (.cons k2 v2 tl)

end

/-- JS object-literal field assignment: an existing key keeps its
position and gets the new value, a new key is appended. -/
def objSet : List (Str × Json) → Str → Json → List (Str × Json)
  | [], k, v => [(k, v)]
  | (k2, v2) :: rest, k, v =>
    if k2 = k then (k, v) :: rest else (k2, v2) :: objSet rest k v

/-- Field lookup in an object built by `objSet` (keys are unique there,
so the first occurrence is the field). -/
def lookupFirstJ : List (Str × Json) → Str → Option Json
  | [], _ => none
  | (k2, v) :: rest, k => if k2 = k then some v else lookupFirstJ rest k

/-- A `List (Str × Json)` rendered as a `JsonObj` for stringification. -/
def toJsonObj : List (Str × Json) → JsonObj
  | [] => .nil
  | (k, v) :: rest => .cons k v (toJsonObj rest)

/-- The destructured `OpenAIStreamingParams` argument: the API key, the
model, and the open-ended rest of the provider parameters
(`{ apiKey, model, ...restOfApiParams }`, line 12). -/
structure OpenAIStreamingParams where
  apiKey : Str
  model : Str
  restOfApiParams : List (Str × Json)

/-- The shape the fetch interface expects (lines 15-28); the
`AbortSignal` is an opaque token. -/
structure FetchRequestOptions where
  headers : List (Str × Str)
  method : Str
  body : Str
  signal : Option Nat

/-- The fields of the object literal
`{ model, ...restOfApiParams, messages, stream: true }` (lines 21-27),
built by JS object-literal evaluation order. -/
def requestBodyFields (p : OpenAIStreamingParams) (messages : JsonArr) : List (Str × Json) :=
  objSet
    (objSet
      (p.restOfApiParams.foldl (fun fs kv => objSet fs kv.1 kv.2)
        (objSet [] "model".data (.str p.model)))
      "messages".data (.arr messages))
    "stream".data (.bool true)

/-- Lines 11-29: `getOpenAiRequestOptions`. -/
def getOpenAiRequestOptions (p : OpenAIStreamingParams) (messages : JsonArr)
    (signal : Option Nat) : FetchRequestOptions :=
  { headers := [("Content-Type".data, "application/json".data),
                ("Authorization".data, "Bearer ".data ++ p.apiKey)],
    method := "POST".data,
    body := jsonStringify (.obj (toJsonObj (requestBodyFields p messages))),
    signal := signal }

/- ## Wire format helpers for the theorems -/

/-- The double-newline event separator. -/
def nl2 : Str := ['\n', '\n']

/-- The terminal-marker frame text. -/
def doneText : Str := "data: [DONE]".data

/-- A frame list on the wire: each frame followed by the separator. -/
def framesWire (fs : List (Str × Str × Json)) : Str :=
  (fs.map (fun x => x.1 ++ nl2)).flatten

/-- The terminal marker on the wire. -/
def doneWire : Str := doneText ++ nl2

/-- The segments the split yields for a frame list: each frame followed
by the captured `"\n"` separator segment. -/
def frameSegs (fs : List (Str × Str × Json)) : List Str :=
  (fs.map (fun x => [x.1, ['\n']])).flatten

/-- The `onIncomingChunk` arguments of a frame list. -/
def frameEvents (fs : List (Str × Str × Json)) : List (Str × Json) :=
  fs.map (fun x => (x.2.1, x.2.2))

/-- The concatenated content deltas of a frame list. -/
def frameContents (fs : List (Str × Str × Json)) : Str :=
  (fs.map (fun x => x.2.1)).flatten

/-- The concatenated (string-coerced) role deltas of a frame list. -/
def frameRoles (fs : List (Str × Str × Json)) : Str :=
  (fs.map (fun x => jsToString x.2.2)).flatten

/-- A well-formed frame with content delta `c` (after the backtick
transform) and role delta `r`: it contains no newline, and its payload
(after the `data:` strip and trim) parses as JSON from which the
delta extraction succeeds with exactly `(c, r)`. -/
def wfFrame (f : Str) (c : Str) (r : Json) : Prop :=
  '\n' ∉ f ∧ (jsonParse (trimJS (stripData f))).map frameDeltas = some (.ok (c, r))

/- ## Concrete inputs used by witnesses and counterexamples -/

/-- A frame carrying only a role delta (the spec §8 example). -/
def exFrameRole : Str := "data: \x7b\"choices\":[\x7b\"delta\":\x7b\"role\":\"assistant\"\x7d\x7d]\x7d".data

/-- A frame carrying only a content delta (the spec §8 example). -/
def exFrameHi : Str := "data: \x7b\"choices\":[\x7b\"delta\":\x7b\"content\":\"Hi\"\x7d\x7d]\x7d".data

/-- A frame whose content delta is the two-byte UTF-8 character U+00E9. -/
def mbFrame : Str := "data: \x7b\"choices\":[\x7b\"delta\":\x7b\"content\":\"é\"\x7d\x7d]\x7d".data

/-- The bytes of `mbFrame` plus terminal marker, cut in the middle of the
two-byte encoding of U+00E9: first chunk. -/
def mbChunk1 : List Nat :=
  utf8Encode "data: \x7b\"choices\":[\x7b\"delta\":\x7b\"content\":\"".data ++ [0xC3]

/-- The bytes of `mbFrame` plus terminal marker, cut in the middle of the
two-byte encoding of U+00E9: second chunk. -/
def mbChunk2 : List Nat :=
  0xA9 :: utf8Encode ("\"\x7d\x7d]\x7d".data ++ nl2 ++ doneWire)

/- ## Lemmas about the split -/

theorem splitDN_sep (z : Str) :
    splitDN ('\n' :: '\n' :: z) = (([] : Str) :: ['\n'] :: (splitDN z).1, (splitDN z).2) := by
  simp [splitDN]

theorem splitDN_cons2 (c d : Char) (z : Str) (h : ¬(c = '\n' ∧ d = '\n')) :
    splitDN (c :: d :: z) =
      match splitDN (d :: z) with
      | ([], r) => ([], c :: r)
      | (s :: ss, r) => ((c :: s) :: ss, r) := by
  simp [splitDN, h]

/-- When the split finds no separator, the final segment is the whole
input. -/
theorem splitDN_no_seg : ∀ s : Str, (splitDN s).1 = [] → (splitDN s).2 = s := by
  intro s
  induction s using splitDN.induct with
  | case1 => intro; rfl
  | case2 c => intro; rfl
  | case3 c d rest2 h ih =>
    obtain ⟨hc, hd⟩ := h; subst hc; subst hd
    rw [splitDN_sep]
    intro hx
    exact absurd hx (by simp)
  | case4 c d rest2 h r hp ih =>
    rw [splitDN_cons2 c d rest2 h, hp]
    intro
    have h2 := ih
    rw [hp] at h2
    have h3 := h2 rfl
    simp at h3
    simp [h3]
  | case5 c d rest2 h s1 ss r hp ih =>
    rw [splitDN_cons2 c d rest2 h, hp]
    intro hx
    exact absurd hx (by simp)

/-- The split is a left-to-right scan: splitting `x ++ y` yields the
complete segments of `x`, then those of the remainder of `x` glued to
`y`. -/
theorem splitDN_append : ∀ x y : Str,
    splitDN (x ++ y) = ((splitDN x).1 ++ (splitDN ((splitDN x).2 ++ y)).1,
      (splitDN ((splitDN x).2 ++ y)).2) := by
  intro x y
  induction x using splitDN.induct with
  | case1 => simp [splitDN]
  | case2 c => simp [splitDN]
  | case3 c d rest2 h ih =>
    obtain ⟨hc, hd⟩ := h; subst hc; subst hd
    rw [List.cons_append, List.cons_append, splitDN_sep, splitDN_sep, ih]
    simp
  | case4 c d rest2 h r hp ih =>
    have hr : r = d :: rest2 := by
      have h2 := splitDN_no_seg (d :: rest2)
      rw [hp] at h2
      exact h2 rfl
    subst hr
    rw [List.cons_append, List.cons_append, splitDN_cons2 c d rest2 h, hp]
    simp only [List.nil_append, List.cons_append]
  | case5 c d rest2 h s1 ss r hp ih =>
    rw [List.cons_append, List.cons_append, splitDN_cons2 c d (rest2 ++ y) h]
    rw [show d :: (rest2 ++ y) = (d :: rest2) ++ y from rfl, ih, hp]
    rw [splitDN_cons2 c d rest2 h, hp]
    simp

/- ## Lemmas about the read loop -/

theorem processSegs_append (a b : List Str) : ∀ acc,
    processSegs acc (a ++ b) =
      match processSegs acc a with
      | (acc2, none) => processSegs acc2 b
      | (acc2, some e) => (acc2, some e) := by
  induction a with
  | nil => intro acc; simp [processSegs]
  | cons s rest ih =>
    intro acc
    rw [List.cons_append]
    cases h : processSeg acc s with
    | error e => simp [processSegs, h]
    | ok acc2 => simp [processSegs, h, ih acc2]

theorem decodeLoop_merge (c1 c2 : Str) (cs : List Str) (buf : Str) (acc : SessAcc) :
    decodeLoop buf acc (c1 :: c2 :: cs) = decodeLoop buf acc ((c1 ++ c2) :: cs) := by
  simp only [decodeLoop]
  rw [show buf ++ (c1 ++ c2) = (buf ++ c1) ++ c2 by simp [List.append_assoc]]
  rw [splitDN_append (buf ++ c1) c2, processSegs_append]
  rcases h : processSegs acc (splitDN (buf ++ c1)).1 with ⟨acc2, _ | e⟩
  · simp only [decodeLoop]
  · rfl

theorem decodeLoop_single (c buf : Str) (acc : SessAcc) :
    decodeLoop buf acc [c] = processSegs acc (splitDN (buf ++ c)).1 := by
  simp only [decodeLoop]
  rcases h : processSegs acc (splitDN (buf ++ c)).1 with ⟨acc2, _ | e⟩
  · simp [decodeLoop]
  · rfl

theorem decodeLoop_to_single : ∀ (cs : List Str) (c buf : Str) (acc : SessAcc),
    decodeLoop buf acc (c :: cs) = decodeLoop buf acc [c ++ cs.flatten] := by
  intro cs
  induction cs with
  | nil => intro c buf acc; simp
  | cons c2 cs2 ih =>
    intro c buf acc
    rw [decodeLoop_merge, ih]
    simp [List.append_assoc]

/-- Buffering is insensitive to chunk boundaries: the read loop on any
chunk sequence behaves as one pass over the concatenated text. -/
theorem decodeLoop_join (chunks : List Str) (acc : SessAcc) :
    decodeLoop [] acc chunks = processSegs acc (splitDN chunks.flatten).1 := by
  cases chunks with
  | nil => simp [decodeLoop, splitDN, processSegs]
  | cons c cs =>
    rw [decodeLoop_to_single, decodeLoop_single]
    simp

theorem splitDN_frame : ∀ (f : Str), '\n' ∉ f → ∀ (z : Str),
    splitDN (f ++ '\n' :: '\n' :: z) = (f :: ['\n'] :: (splitDN z).1, (splitDN z).2) := by
  intro f
  induction f with
  | nil => intro _ z; rw [List.nil_append, splitDN_sep]
  | cons a f' ih =>
    intro hf z
    have ha : a ≠ '\n' := by simp at hf; exact fun hh => hf.1 hh.symm
    have hf' : '\n' ∉ f' := by simp at hf; exact hf.2
    cases f' with
    | nil =>
      rw [List.cons_append, List.nil_append,
        splitDN_cons2 a '\n' ('\n' :: z) (by simp [ha]), splitDN_sep]
    | cons b f'' =>
      rw [List.cons_append,
        show (b :: f'') ++ '\n' :: '\n' :: z = b :: (f'' ++ '\n' :: '\n' :: z) from rfl]
      rw [splitDN_cons2 a b (f'' ++ '\n' :: '\n' :: z) (by simp [ha])]
      rw [show b :: (f'' ++ '\n' :: '\n' :: z) = (b :: f'') ++ '\n' :: '\n' :: z from rfl]
      rw [ih hf' z]

theorem splitDN_wire : ∀ (fs : List (Str × Str × Json)), (∀ x ∈ fs, '\n' ∉ x.1) → ∀ (z : Str),
    splitDN (framesWire fs ++ z) = (frameSegs fs ++ (splitDN z).1, (splitDN z).2) := by
  intro fs
  induction fs with
  | nil => intro _ z; simp [framesWire, frameSegs]
  | cons x fs' ih =>
    intro h z
    have hx := h x (List.mem_cons_self x fs')
    have hrest := fun y hy => h y (List.mem_cons_of_mem x hy)
    rw [show framesWire (x :: fs') ++ z = x.1 ++ '\n' :: '\n' :: (framesWire fs' ++ z) by
      simp [framesWire, nl2, List.append_assoc]]
    rw [splitDN_frame x.1 hx, ih hrest z]
    simp [frameSegs]

theorem jsonParse_nil : jsonParse [] = none := rfl

theorem jsonParse_doneMarker : jsonParse "[DONE]".data = none := rfl

theorem processSeg_skip_sep (acc : SessAcc) : processSeg acc ['\n'] = .ok acc := rfl

theorem processSeg_skip_done (acc : SessAcc) : processSeg acc doneText = .ok acc := rfl

theorem processSeg_wf (acc : SessAcc) (f c : Str) (r : Json) (h : wfFrame f c r) :
    processSeg acc f = .ok ⟨acc.content ++ c, acc.role ++ jsToString r, acc.events ++ [(c, r)]⟩ := by
  obtain ⟨hnl, hres⟩ := h
  cases hp : jsonParse (trimJS (stripData f)) with
  | none => rw [hp] at hres; simp at hres
  | some j =>
    rw [hp] at hres
    simp only [Option.map_some'] at hres
    have hd : frameDeltas j = .ok (c, r) := by injection hres
    have ht1 : trimJS (stripData f) ≠ [] := by
      intro hx
      rw [hx, jsonParse_nil] at hp
      exact Option.noConfusion hp
    have ht2 : trimJS (stripData f) ≠ "[DONE]".data := by
      intro hx
      rw [hx, jsonParse_doneMarker] at hp
      exact Option.noConfusion hp
    simp only [processSeg, if_neg ht1, if_neg ht2, hp, hd]

theorem processSegs_frames : ∀ (fs : List (Str × Str × Json)),
    (∀ x ∈ fs, wfFrame x.1 x.2.1 x.2.2) → ∀ (acc : SessAcc) (extra : List Str),
    processSegs acc (frameSegs fs ++ extra) =
      processSegs ⟨acc.content ++ frameContents fs, acc.role ++ frameRoles fs,
        acc.events ++ frameEvents fs⟩ extra := by
  intro fs
  induction fs with
  | nil =>
    intro _ acc extra
    simp [frameSegs, frameContents, frameRoles, frameEvents]
  | cons x fs' ih =>
    intro h acc extra
    have hx := h x (List.mem_cons_self x fs')
    have hrest := fun y hy => h y (List.mem_cons_of_mem x hy)
    rw [show frameSegs (x :: fs') ++ extra = x.1 :: ['\n'] :: (frameSegs fs' ++ extra) by
      simp [frameSegs]]
    rw [show ∀ (s : Str) (rest : List Str), processSegs acc (s :: rest) =
        match processSeg acc s with
        | .ok a2 => processSegs a2 rest
        | .error e => (acc, some e) from fun _ _ => rfl]
    rw [processSeg_wf acc x.1 x.2.1 x.2.2 hx]
    show processSegs ⟨acc.content ++ x.2.1, acc.role ++ jsToString x.2.2,
      acc.events ++ [(x.2.1, x.2.2)]⟩ (frameSegs fs' ++ extra) = _
    rw [ih hrest _ extra]
    simp [frameContents, frameRoles, frameEvents, List.append_assoc]

/-- The UTF-8 decoder inverts the encoder at the head of a byte stream. -/
theorem utf8Decode_encodeChar (c : Char) (rest : List Nat) :
    utf8Decode (utf8EncodeChar c ++ rest) = c :: utf8Decode rest := by
  have hv : c.toNat < 0xd800 ∨ (0xdfff < c.toNat ∧ c.toNat < 0x110000) := c.valid
  by_cases h1 : c.toNat < 0x80
  · have he : utf8EncodeChar c = [c.toNat] := by
      unfold utf8EncodeChar
      simp [h1]
    rw [he, List.cons_append, List.nil_append]
    conv_lhs => rw [utf8Decode.eq_def]
    have f1 : c.toNat ≤ 0x7F := by omega
    simp only [f1, if_true, ite_true]
    rw [Char.ofNat_toNat]
  · by_cases h2 : c.toNat < 0x800
    · have he : utf8EncodeChar c = [0xC0 + c.toNat / 64, 0x80 + c.toNat % 64] := by
        unfold utf8EncodeChar
        simp [h1, h2]
      rw [he, List.cons_append, List.cons_append, List.nil_append]
      conv_lhs => rw [utf8Decode.eq_def]
      have f1 : ¬(0xC0 + c.toNat / 64 ≤ 0x7F) := by omega
      have f2 : 0xC2 ≤ 0xC0 + c.toNat / 64 ∧ 0xC0 + c.toNat / 64 ≤ 0xDF := by omega
      have f3 : contByte (0x80 + c.toNat % 64) = true := by
        simp only [contByte, Bool.and_eq_true, decide_eq_true_eq]; omega
      simp only [f1, f2, f3, if_true, if_false, ite_true, ite_false, and_self]
      have harith : (0xC0 + c.toNat / 64 - 0xC0) * 64 + (0x80 + c.toNat % 64 - 0x80)
          = c.toNat := by omega
      rw [harith, Char.ofNat_toNat]
    · by_cases h3 : c.toNat < 0x10000
      · have he : utf8EncodeChar c =
            [0xE0 + c.toNat / 4096, 0x80 + c.toNat / 64 % 64, 0x80 + c.toNat % 64] := by
          unfold utf8EncodeChar
          simp [h1, h2, h3]
        rw [he, List.cons_append, List.cons_append, List.cons_append, List.nil_append]
        conv_lhs => rw [utf8Decode.eq_def]
        have f1 : ¬(0xE0 + c.toNat / 4096 ≤ 0x7F) := by omega
        have f2 : ¬(0xC2 ≤ 0xE0 + c.toNat / 4096 ∧ 0xE0 + c.toNat / 4096 ≤ 0xDF) := by omega
        have f3 : 0xE0 ≤ 0xE0 + c.toNat / 4096 ∧ 0xE0 + c.toNat / 4096 ≤ 0xEF := by omega
        have f4 : cont3lo (0xE0 + c.toNat / 4096) ≤ 0x80 + c.toNat / 64 % 64 ∧
            0x80 + c.toNat / 64 % 64 ≤ cont3hi (0xE0 + c.toNat / 4096) := by
          simp only [cont3lo, cont3hi]
          split_ifs <;> omega
        have f5 : contByte (0x80 + c.toNat % 64) = true := by
          simp only [contByte, Bool.and_eq_true, decide_eq_true_eq]; omega
        simp only [f1, f2, f3, f4, f5, if_true, if_false, ite_true, ite_false, and_self]
        have harith : (0xE0 + c.toNat / 4096 - 0xE0) * 4096 +
            (0x80 + c.toNat / 64 % 64 - 0x80) * 64 + (0x80 + c.toNat % 64 - 0x80)
            = c.toNat := by omega
        rw [harith, Char.ofNat_toNat]
      · have he : utf8EncodeChar c =
            [0xF0 + c.toNat / 262144, 0x80 + c.toNat / 4096 % 64,
             0x80 + c.toNat / 64 % 64, 0x80 + c.toNat % 64] := by
          unfold utf8EncodeChar
          simp [h1, h2, h3]
        rw [he, List.cons_append, List.cons_append, List.cons_append, List.cons_append,
          List.nil_append]
        conv_lhs => rw [utf8Decode.eq_def]
        have hr : c.toNat < 0x110000 := by omega
        have f1 : ¬(0xF0 + c.toNat / 262144 ≤ 0x7F) := by omega
        have f2 : ¬(0xC2 ≤ 0xF0 + c.toNat / 262144 ∧ 0xF0 + c.toNat / 262144 ≤ 0xDF) := by omega
        have f3 : ¬(0xE0 ≤ 0xF0 + c.toNat / 262144 ∧ 0xF0 + c.toNat / 262144 ≤ 0xEF) := by omega
        have f4 : 0xF0 ≤ 0xF0 + c.toNat / 262144 ∧ 0xF0 + c.toNat / 262144 ≤ 0xF4 := by omega
        have f5 : cont4lo (0xF0 + c.toNat / 262144) ≤ 0x80 + c.toNat / 4096 % 64 ∧
            0x80 + c.toNat / 4096 % 64 ≤ cont4hi (0xF0 + c.toNat / 262144) := by
          simp only [cont4lo, cont4hi]
          split_ifs <;> omega
        have f6 : contByte (0x80 + c.toNat / 64 % 64) = true := by
          simp only [contByte, Bool.and_eq_true, decide_eq_true_eq]; omega
        have f7 : contByte (0x80 + c.toNat % 64) = true := by
          simp only [contByte, Bool.and_eq_true, decide_eq_true_eq]; omega
        simp only [f1, f2, f3, f4, f5, f6, f7, if_true, if_false, ite_true, ite_false, and_self]
        have harith : (0xF0 + c.toNat / 262144 - 0xF0) * 262144 +
            (0x80 + c.toNat / 4096 % 64 - 0x80) * 4096 +
            (0x80 + c.toNat / 64 % 64 - 0x80) * 64 + (0x80 + c.toNat % 64 - 0x80)
            = c.toNat := by omega
        rw [harith, Char.ofNat_toNat]

/-- A fresh decoder run on a whole UTF-8 encoding recovers the text. -/
theorem utf8Decode_encode : ∀ s : Str, utf8Decode (utf8Encode s) = s := by
  intro s
  induction s with
  | nil => rfl
  | cons c cs ih =>
    rw [show utf8Encode (c :: cs) = utf8EncodeChar c ++ utf8Encode cs by
      simp [utf8Encode]]
    rw [utf8Decode_encodeChar, ih]

theorem map_decode_encode (css : List Str) : (css.map utf8Encode).map utf8Decode = css := by
  rw [List.map_map]
  have h : utf8Decode ∘ utf8Encode = id := funext utf8Decode_encode
  rw [h, List.map_id]

theorem processSegs_done_cons (acc : SessAcc) (extra : List Str) :
    processSegs acc (doneText :: ['\n'] :: extra) = processSegs acc extra := rfl

theorem splitDN_doneWire : splitDN doneWire = ([doneText, ['\n']], []) := by
  rw [show doneWire = doneText ++ '\n' :: '\n' :: ([] : Str) from rfl,
    splitDN_frame doneText (by decide) []]
  rfl

/-- Claim C1 (amended): for byte chunks that each encode whole characters
and whose concatenation forms the well-formed frames `fs` followed by the
terminal marker, the handler calls `onIncomingChunk` once per frame, in
order, then `onCloseStream` once, and returns the concatenation of the
content deltas and of the role deltas, in order. -/
theorem c1_decoder_correct (fs : List (Str × Str × Json)) (css : List Str)
    (ts : Nat) (stx : Str)
    (hwf : ∀ x ∈ fs, wfFrame x.1 x.2.1 x.2.2)
    (hjoin : css.flatten = framesWire fs ++ doneWire) :
    openAiStreamingDataHandler ⟨200, stx, some (css.map utf8Encode)⟩ ts =
      (chunkEvents (frameEvents fs) ++ [.close ts],
        .ok ⟨frameContents fs, frameRoles fs⟩) := by
  have hok : responseOk ⟨200, stx, some (css.map utf8Encode)⟩ = true := rfl
  rw [openAiStreamingDataHandler, if_pos hok]
  show handlerCore (css.map utf8Encode) ts = _
  rw [handlerCore, map_decode_encode, decodeLoop_join, hjoin]
  rw [splitDN_wire fs (fun x hx => (hwf x hx).1) doneWire, splitDN_doneWire]
  rw [processSegs_frames fs hwf (⟨[], [], []⟩ : SessAcc) [doneText, ['\n']]]
  rw [processSegs_done_cons]
  show (chunkEvents (([] : List (Str × Json)) ++ frameEvents fs) ++ [CallEvent.close ts],
    (Except.ok (⟨([] : Str) ++ frameContents fs, ([] : Str) ++ frameRoles fs⟩ : ChatMessage) :
      Except HErr ChatMessage)) = _
  simp

def exFrames : List (Str × Str × Json) :=
  [(exFrameRole, [], .str "assistant".data), (exFrameHi, "Hi".data, .str [])]

theorem c1_witness :
    openAiStreamingDataHandler
      ⟨200, [], some ([exFrameRole ++ nl2, exFrameHi ++ nl2, doneWire].map utf8Encode)⟩ 5 =
      (chunkEvents (frameEvents exFrames) ++ [.close 5],
        .ok ⟨frameContents exFrames, frameRoles exFrames⟩) :=
  c1_decoder_correct exFrames [exFrameRole ++ nl2, exFrameHi ++ nl2, doneWire] 5 []
    (by
      intro x hx
      simp only [exFrames, List.mem_cons, List.not_mem_nil, or_false] at hx
      rcases hx with rfl | rfl
      · exact ⟨by decide, rfl⟩
      · exact ⟨by decide, rfl⟩)
    (by rfl)

theorem c1_cex :
    wfFrame mbFrame ['é'] (.str []) ∧
    mbChunk1 ++ mbChunk2 = utf8Encode (framesWire [(mbFrame, ['é'], .str [])] ++ doneWire) ∧
    (openAiStreamingDataHandler ⟨200, [], some [mbChunk1, mbChunk2]⟩ 0).2 =
      .ok ⟨[replChar, replChar], []⟩ ∧
    ¬ ([replChar, replChar] : Str) = ['é'] :=
  ⟨⟨by decide, rfl⟩, by decide, rfl, by decide⟩

theorem c2_fresh_decoder_bug :
    (openAiStreamingDataHandler ⟨200, [], some [mbChunk1, mbChunk2]⟩ 0).2 =
      .ok ⟨[replChar, replChar], []⟩ ∧
    (openAiStreamingDataHandler ⟨200, [], some [mbChunk1 ++ mbChunk2]⟩ 0).2 =
      .ok ⟨['é'], []⟩ ∧
    ¬ (⟨[replChar, replChar], []⟩ : ChatMessage) = ⟨['é'], []⟩ :=
  ⟨rfl, rfl, by decide⟩

theorem processSeg_parse_error (acc : SessAcc) (seg : Str)
    (hparse : jsonParse (trimJS (stripData seg)) = none)
    (hne : trimJS (stripData seg) ≠ [])
    (hnd : trimJS (stripData seg) ≠ "[DONE]".data) :
    processSeg acc seg = .error .parse := by
  simp only [processSeg, if_neg hne, if_neg hnd, hparse]

theorem processSegs_cons_error (acc : SessAcc) (seg : Str) (rest : List Str) (e : HErr)
    (h : processSeg acc seg = .error e) :
    processSegs acc (seg :: rest) = (acc, some e) := by
  show (match processSeg acc seg with
    | .ok a2 => processSegs a2 rest
    | .error e2 => (acc, some e2)) = _
  rw [h]

/-- Claim C3: a frame whose payload fails JSON parsing makes the session
fail with the parse error (`ProtocolError`): the callbacks already made
for earlier frames stand, no further `onIncomingChunk` fires for the
failing frame or anything after it, `onCloseStream` never fires, and no
message is returned. -/
theorem c3_malformed_payload (fs : List (Str × Str × Json)) (bad rest : Str)
    (css : List Str) (ts : Nat) (stx : Str)
    (hwf : ∀ x ∈ fs, wfFrame x.1 x.2.1 x.2.2)
    (hb : '\n' ∉ bad)
    (hparse : jsonParse (trimJS (stripData bad)) = none)
    (hne : trimJS (stripData bad) ≠ [])
    (hnd : trimJS (stripData bad) ≠ "[DONE]".data)
    (hjoin : css.flatten = framesWire fs ++ bad ++ nl2 ++ rest) :
    openAiStreamingDataHandler ⟨200, stx, some (css.map utf8Encode)⟩ ts =
      (chunkEvents (frameEvents fs), .error .parse) := by
  have hok : responseOk ⟨200, stx, some (css.map utf8Encode)⟩ = true := rfl
  rw [openAiStreamingDataHandler, if_pos hok]
  show handlerCore (css.map utf8Encode) ts = _
  rw [handlerCore, map_decode_encode, decodeLoop_join, hjoin]
  rw [show framesWire fs ++ bad ++ nl2 ++ rest =
    framesWire fs ++ (bad ++ '\n' :: '\n' :: rest) by simp [nl2, List.append_assoc]]
  rw [splitDN_wire fs (fun x hx => (hwf x hx).1) (bad ++ '\n' :: '\n' :: rest)]
  rw [splitDN_frame bad hb rest]
  rw [processSegs_frames fs hwf (⟨[], [], []⟩ : SessAcc) (bad :: ['\n'] :: (splitDN rest).1)]
  rw [processSegs_cons_error _ bad _ .parse (processSeg_parse_error _ bad hparse hne hnd)]
  simp

/-- Claim C4: a `[DONE]` frame produces no `onIncomingChunk` call and
does not end the session: frames after it are still processed, and only
source exhaustion ends the session (with the close callback). -/
theorem c4_done_marker (fs1 fs2 : List (Str × Str × Json)) (css : List Str)
    (ts : Nat) (stx : Str)
    (hwf1 : ∀ x ∈ fs1, wfFrame x.1 x.2.1 x.2.2)
    (hwf2 : ∀ x ∈ fs2, wfFrame x.1 x.2.1 x.2.2)
    (hjoin : css.flatten = framesWire fs1 ++ doneWire ++ framesWire fs2 ++ doneWire) :
    openAiStreamingDataHandler ⟨200, stx, some (css.map utf8Encode)⟩ ts =
      (chunkEvents (frameEvents (fs1 ++ fs2)) ++ [.close ts],
        .ok ⟨frameContents (fs1 ++ fs2), frameRoles (fs1 ++ fs2)⟩) := by
  have hok : responseOk ⟨200, stx, some (css.map utf8Encode)⟩ = true := rfl
  rw [openAiStreamingDataHandler, if_pos hok]
  show handlerCore (css.map utf8Encode) ts = _
  rw [handlerCore, map_decode_encode, decodeLoop_join, hjoin]
  rw [show framesWire fs1 ++ doneWire ++ framesWire fs2 ++ doneWire =
    framesWire fs1 ++ (doneText ++ '\n' :: '\n' :: (framesWire fs2 ++ doneWire)) by
      simp [doneWire, nl2, List.append_assoc]]
  rw [splitDN_wire fs1 (fun x hx => (hwf1 x hx).1) _]
  rw [splitDN_frame doneText (by decide) (framesWire fs2 ++ doneWire)]
  rw [splitDN_wire fs2 (fun x hx => (hwf2 x hx).1) doneWire, splitDN_doneWire]
  rw [processSegs_frames fs1 hwf1 (⟨[], [], []⟩ : SessAcc)
    (doneText :: ['\n'] :: (frameSegs fs2 ++ [doneText, ['\n']]))]
  rw [processSegs_done_cons]
  rw [processSegs_frames fs2 hwf2 _ [doneText, ['\n']]]
  rw [processSegs_done_cons]
  show (chunkEvents _ ++ [CallEvent.close ts],
    (Except.ok (⟨_, _⟩ : ChatMessage) : Except HErr ChatMessage)) = _
  simp [frameEvents, frameContents, frameRoles, List.append_assoc]

/-- A frame whose payload is not valid JSON. -/
def badFrame : Str := "data: \x7boops".data

/-- Witness for C3: one good frame, then a malformed payload. -/
theorem c3_witness :
    openAiStreamingDataHandler
      ⟨200, [], some ([exFrameHi ++ nl2 ++ badFrame ++ nl2].map utf8Encode)⟩ 3 =
      (chunkEvents (frameEvents [(exFrameHi, "Hi".data, .str [])]), .error .parse) :=
  c3_malformed_payload [(exFrameHi, "Hi".data, .str [])] badFrame []
    [exFrameHi ++ nl2 ++ badFrame ++ nl2] 3 []
    (by
      intro x hx
      simp only [List.mem_singleton] at hx
      subst hx
      exact ⟨by decide, rfl⟩)
    (by decide) rfl (by decide) (by decide) (by rfl)

/-- Witness for C4: a terminal marker between two frames, then another
terminal marker. -/
theorem c4_witness :
    openAiStreamingDataHandler
      ⟨200, [], some ([exFrameHi ++ nl2 ++ doneWire ++ exFrameRole ++ nl2 ++ doneWire].map utf8Encode)⟩ 9 =
      (chunkEvents (frameEvents ([(exFrameHi, "Hi".data, .str [])] ++
          [(exFrameRole, [], .str "assistant".data)])) ++ [.close 9],
        .ok ⟨frameContents ([(exFrameHi, "Hi".data, .str [])] ++
            [(exFrameRole, [], .str "assistant".data)]),
          frameRoles ([(exFrameHi, "Hi".data, .str [])] ++
            [(exFrameRole, [], .str "assistant".data)])⟩) :=
  c4_done_marker [(exFrameHi, "Hi".data, .str [])] [(exFrameRole, [], .str "assistant".data)]
    [exFrameHi ++ nl2 ++ doneWire ++ exFrameRole ++ nl2 ++ doneWire] 9 []
    (by
      intro x hx
      simp only [List.mem_singleton] at hx
      subst hx
      exact ⟨by decide, rfl⟩)
    (by
      intro x hx
      simp only [List.mem_singleton] at hx
      subst hx
      exact ⟨by decide, rfl⟩)
    (by rfl)

/-- Recognizer for the `onCloseStream` event. -/
def isCloseEv : CallEvent → Bool
  | .close _ => true
  | .chunk _ _ => false

theorem chunkEvents_no_close (evs : List (Str × Json)) :
    (chunkEvents evs).countP isCloseEv = 0 := by
  induction evs with
  | nil => rfl
  | cons e rest ih => simp [chunkEvents, List.countP_cons, isCloseEv, ih]

/-- Claim C5: on clean completion the close callback fires exactly once,
as the last event, with exactly the timestamp recorded before the request
was issued; on any fatal failure it never fires. -/
theorem c5_close_once (resp : FetchResponse) (ts : Nat) :
    (∀ m, (openAiStreamingDataHandler resp ts).2 = .ok m →
      ∃ pre, (openAiStreamingDataHandler resp ts).1 = pre ++ [CallEvent.close ts] ∧
        pre.countP isCloseEv = 0) ∧
    (∀ e, (openAiStreamingDataHandler resp ts).2 = .error e →
      ((openAiStreamingDataHandler resp ts).1).countP isCloseEv = 0) := by
  unfold openAiStreamingDataHandler
  by_cases hok : responseOk resp = true
  · rw [if_pos hok]
    rcases hb : resp.body with _ | chunks
    · dsimp only
      constructor
      · intro m h
        exact absurd h (by simp)
      · intro e h
        simp
    · unfold handlerCore
      dsimp only
      rcases hd : decodeLoop [] ⟨[], [], []⟩ (chunks.map utf8Decode) with ⟨acc, oe⟩
      rcases oe with _ | e2
      · dsimp only
        constructor
        · intro m h
          exact ⟨chunkEvents acc.events, rfl, chunkEvents_no_close acc.events⟩
        · intro e h
          exact absurd h (by simp)
      · dsimp only
        constructor
        · intro m h
          exact absurd h (by simp)
        · intro e h
          simp [chunkEvents_no_close acc.events]
  · rw [if_neg hok]
    constructor
    · intro m h
      exact absurd h (by simp)
    · intro e h
      simp

/-- Witness for C5 on an empty, successful stream. -/
theorem c5_witness :
    ∃ pre, (openAiStreamingDataHandler ⟨200, [], some []⟩ 7).1 = pre ++ [CallEvent.close 7] ∧
      pre.countP isCloseEv = 0 :=
  (c5_close_once ⟨200, [], some []⟩ 7).1 ⟨[], []⟩ rfl

/-- Claim C6: a response whose status is outside 200-299 fails at once
with a transport error carrying the status and its description, whatever
the body holds (the read loop is never entered, no callback fires); an
in-range response without a body fails with the no-body error before any
read. -/
theorem c6_transport_errors (status : Nat) (stx : Str)
    (body : Option (List (List Nat))) (ts : Nat) :
    (¬(200 ≤ status ∧ status ≤ 299) →
      openAiStreamingDataHandler ⟨status, stx, body⟩ ts =
        ([], .error (.transport status stx))) ∧
    ((200 ≤ status ∧ status ≤ 299) →
      openAiStreamingDataHandler ⟨status, stx, none⟩ ts = ([], .error .noBody)) := by
  constructor
  · intro h
    have hok : ¬ responseOk ⟨status, stx, body⟩ = true := by
      simp only [responseOk, Bool.and_eq_true, decide_eq_true_eq]
      exact fun hx => h hx
    rw [openAiStreamingDataHandler, if_neg hok]
  · intro h
    have hok : responseOk ⟨status, stx, none⟩ = true := by
      simp only [responseOk, Bool.and_eq_true, decide_eq_true_eq]
      exact h
    rw [openAiStreamingDataHandler, if_pos hok]

/-- Witness for C6 at statuses 500 and 200. -/
theorem c6_witness :
    openAiStreamingDataHandler ⟨500, "Internal Server Error".data,
        some [[100, 97, 116, 97]]⟩ 0 =
      ([], .error (.transport 500 "Internal Server Error".data)) ∧
    openAiStreamingDataHandler ⟨200, [], none⟩ 0 = ([], .error .noBody) :=
  ⟨(c6_transport_errors 500 "Internal Server Error".data (some [[100, 97, 116, 97]]) 0).1
      (by omega),
    (c6_transport_errors 200 [] none 0).2 (by omega)⟩

/-- The C7 stream: a first well-formed frame, a triple newline (so the
next split segment starts with a stray newline), a second well-formed
frame, and the terminal marker. -/
def c7input : Str :=
  ("data: \x7b\"choices\":[\x7b\"delta\":\x7b\"content\":\"x\"\x7d\x7d]\x7d\n\n" ++
   "\ndata: \x7b\"choices\":[\x7b\"delta\":\x7b\"content\":\"y\"\x7d\x7d]\x7d\n\ndata: [DONE]\n\n").data

/-- Claim C7 (code bug): the `(\n)?` in the strip regex is dead because
the un-anchored-by-`m` `^` only matches at the string start, so a segment
of the form `"\ndata: <json>"` keeps its `data:` marker after the strip
and the trim, and `JSON.parse` then throws: the session fails with the
parse error instead of decoding the frame. -/
theorem c7_newline_data_bug :
    stripData ('\n' :: "data: hi".data) = '\n' :: "data: hi".data ∧
    trimJS (stripData ('\n' :: "data: \x7b\"a\":1\x7d".data)) = "data: \x7b\"a\":1\x7d".data ∧
    openAiStreamingDataHandler ⟨200, [], some [utf8Encode c7input]⟩ 0 =
      ([CallEvent.chunk ['x'] (.str [])], .error .parse) :=
  ⟨rfl, rfl, rfl⟩

theorem roleValue_some (r : Json) (h : r ≠ .null) : roleValue (some r) = r := by
  cases r with
  | null => exact absurd rfl h
  | bool b => rfl
  | num raw => rfl
  | str s => rfl
  | arr l => rfl
  | obj fs => rfl

theorem collapseBacktick_of_ne (c : Char) (s : Str) (h : ¬ c = '`') :
    collapseBacktick (c :: s) = c :: s := by
  rw [collapseBacktick.eq_def]
  split
  · next heq =>
    rw [List.cons.injEq] at heq
    exact absurd heq.1 h
  · rfl

/-- Claim C8: on a successfully parsed frame exactly one transform runs,
on the content delta only: a content delta starting with a backtick has
the whitespace run after the backtick collapsed away, every other
content delta is unchanged, and the role delta is passed through (and
string-coerced into the accumulator) unchanged. -/
theorem c8_content_transform (j : Json) (s : Str) (r : Json)
    (hc : deltaField j "content".data = .ok (some (.str s)))
    (hr : deltaField j "role".data = .ok (some r))
    (hrn : r ≠ .null) :
    frameDeltas j = .ok (collapseBacktick s, r) ∧
    (∀ c rest, s = '`' :: c :: rest → jsWhitespace c = true →
      collapseBacktick s = '`' :: List.dropWhile jsWhitespace (c :: rest)) ∧
    ((∀ c rest, s = '`' :: c :: rest → jsWhitespace c = false) → collapseBacktick s = s) ∧
    (∀ t : Str, jsToString (.str t) = t) := by
  refine ⟨?_, ?_, ?_, fun t => rfl⟩
  · rw [frameDeltas, hc]
    show (match deltaField j "role".data with
      | Except.error e => Except.error e
      | Except.ok rraw => Except.ok (collapseBacktick s, roleValue rraw)) = _
    rw [hr]
    show Except.ok (collapseBacktick s, roleValue (some r)) = _
    rw [roleValue_some r hrn]
  · intro c rest hs hws
    subst hs
    rfl
  · intro hno
    match s with
    | [] => rfl
    | c :: s' =>
      by_cases hbt : c = '`'
      · subst hbt
        match s' with
        | [] => rfl
        | c2 :: rest =>
          have hw2 : jsWhitespace c2 = false := hno c2 rest rfl
          show '`' :: List.dropWhile jsWhitespace (c2 :: rest) = _
          rw [List.dropWhile_cons_of_neg (by simp [hw2])]
      · exact collapseBacktick_of_ne c s' hbt

/-- A parsed frame payload whose content delta starts with a backtick
followed by whitespace. -/
def c8json : Json :=
  .obj (.cons "choices".data
    (.arr (.cons (.obj (.cons "delta".data
      (.obj (.cons "content".data (.str "`  hi".data)
        (.cons "role".data (.str "assistant".data) .nil))) .nil)) .nil)) .nil)

/-- Witness for C8 at a concrete parsed frame. -/
theorem c8_witness :
    frameDeltas c8json = .ok (collapseBacktick "`  hi".data, .str "assistant".data) ∧
    collapseBacktick "`  hi".data = '`' :: List.dropWhile jsWhitespace (' ' :: " hi".data) :=
  ⟨(c8_content_transform c8json "`  hi".data (.str "assistant".data) rfl rfl
      (by intro h; exact Json.noConfusion h)).1,
    (c8_content_transform c8json "`  hi".data (.str "assistant".data) rfl rfl
      (by intro h; exact Json.noConfusion h)).2.1 ' ' " hi".data rfl rfl⟩

theorem jsAccess_some (j : Json) (f : Json → Option Json) (h : j ≠ .null) :
    jsAccess (some j) f = .ok (f j) := by
  cases j with
  | null => exact absurd rfl h
  | bool b => rfl
  | num raw => rfl
  | str s => rfl
  | arr l => rfl
  | obj fs => rfl

/-- A payload that parses but does not expose `choices[0].delta` makes
the member-access chain throw. -/
theorem deltaField_error_of_shape (j : Json)
    (hshape : propGet j "choices".data = none ∨
      propGet j "choices".data = some (.arr .nil) ∨
      ∃ e es, propGet j "choices".data = some (.arr (.cons e es)) ∧
        (e = .null ∨ propGet e "delta".data = none ∨ propGet e "delta".data = some .null)) :
    deltaField j "content".data = .error () := by
  by_cases hj0 : j = .null
  · subst hj0
    rfl
  · rcases hshape with d1 | d2 | ⟨e, es, hch, hd⟩
    · rw [deltaField, jsAccess_some j _ hj0, d1]
      rfl
    · rw [deltaField, jsAccess_some j _ hj0, d2]
      rfl
    · rw [deltaField, jsAccess_some j _ hj0, hch]
      by_cases he0 : e = .null
      · subst he0
        rfl
      · rcases hd with rfl | hdn | hdnull
        · exact absurd rfl he0
        · show (match jsAccess (some e) (fun v => propGet v "delta".data) with
            | Except.error e2 => Except.error e2
            | Except.ok v3 => jsAccess v3 (fun v => propGet v "content".data)) = _
          rw [jsAccess_some e _ he0, hdn]
          rfl
        · show (match jsAccess (some e) (fun v => propGet v "delta".data) with
            | Except.error e2 => Except.error e2
            | Except.ok v3 => jsAccess v3 (fun v => propGet v "content".data)) = _
          rw [jsAccess_some e _ he0, hdnull]
          rfl

theorem processSeg_access_error (acc : SessAcc) (seg : Str) (j : Json)
    (hj : jsonParse (trimJS (stripData seg)) = some j)
    (hd : frameDeltas j = .error ()) :
    processSeg acc seg = .error .access := by
  have hne : trimJS (stripData seg) ≠ [] := by
    intro hx
    rw [hx, jsonParse_nil] at hj
    exact Option.noConfusion hj
  have hnd : trimJS (stripData seg) ≠ "[DONE]".data := by
    intro hx
    rw [hx, jsonParse_doneMarker] at hj
    exact Option.noConfusion hj
  simp only [processSeg, if_neg hne, if_neg hnd, hj, hd]

/-- Claim C9: a frame whose payload parses as JSON but does not expose
`choices[0].delta` (no `choices`, empty `choices`, or a first element
without a `delta` object) makes the field access throw: the session
fails, no close callback fires, and no message is returned — the frame
is not treated as a pair of empty deltas. -/
theorem c9_missing_delta (fs : List (Str × Str × Json)) (f rest : Str) (j : Json)
    (css : List Str) (ts : Nat) (stx : Str)
    (hwf : ∀ x ∈ fs, wfFrame x.1 x.2.1 x.2.2)
    (hf : '\n' ∉ f)
    (hj : jsonParse (trimJS (stripData f)) = some j)
    (hshape : propGet j "choices".data = none ∨
      propGet j "choices".data = some (.arr .nil) ∨
      ∃ e es, propGet j "choices".data = some (.arr (.cons e es)) ∧
        (e = .null ∨ propGet e "delta".data = none ∨ propGet e "delta".data = some .null))
    (hjoin : css.flatten = framesWire fs ++ f ++ nl2 ++ rest) :
    openAiStreamingDataHandler ⟨200, stx, some (css.map utf8Encode)⟩ ts =
      (chunkEvents (frameEvents fs), .error .access) := by
  have hdf : frameDeltas j = .error () := by
    rw [frameDeltas, deltaField_error_of_shape j hshape]
  have hok : responseOk ⟨200, stx, some (css.map utf8Encode)⟩ = true := rfl
  rw [openAiStreamingDataHandler, if_pos hok]
  show handlerCore (css.map utf8Encode) ts = _
  rw [handlerCore, map_decode_encode, decodeLoop_join, hjoin]
  rw [show framesWire fs ++ f ++ nl2 ++ rest =
    framesWire fs ++ (f ++ '\n' :: '\n' :: rest) by simp [nl2, List.append_assoc]]
  rw [splitDN_wire fs (fun x hx => (hwf x hx).1) (f ++ '\n' :: '\n' :: rest)]
  rw [splitDN_frame f hf rest]
  rw [processSegs_frames fs hwf (⟨[], [], []⟩ : SessAcc) (f :: ['\n'] :: (splitDN rest).1)]
  rw [processSegs_cons_error _ f _ .access (processSeg_access_error _ f j hj hdf)]
  simp

/-- Witness for C9 at a frame with empty `choices`. -/
theorem c9_witness :
    openAiStreamingDataHandler
      ⟨200, [], some ([("data: \x7b\"choices\":[]\x7d".data ++ nl2 ++ doneWire)].map utf8Encode)⟩ 2 =
      (chunkEvents (frameEvents []), .error .access) :=
  c9_missing_delta [] "data: \x7b\"choices\":[]\x7d".data doneWire
    (.obj (.cons "choices".data (.arr .nil) .nil))
    [("data: \x7b\"choices\":[]\x7d".data ++ nl2 ++ doneWire)] 2 []
    (by intro x hx; cases hx)
    (by decide) rfl
    (Or.inr (Or.inl rfl))
    (by rfl)

theorem lookupFirstJ_objSet (fs : List (Str × Json)) (k : Str) (v : Json) (k2 : Str) :
    lookupFirstJ (objSet fs k v) k2 = if k2 = k then some v else lookupFirstJ fs k2 := by
  induction fs with
  | nil =>
    by_cases h : k2 = k
    · subst h
      simp [objSet, lookupFirstJ]
    · have h3 : ¬ k = k2 := fun hx => h (Eq.symm hx)
      simp [objSet, lookupFirstJ, h, h3]
  | cons p rest ih =>
    rcases p with ⟨a, b⟩
    by_cases hak : a = k
    · subst hak
      by_cases h2 : k2 = a
      · subst h2
        simp [objSet, lookupFirstJ]
      · have h3 : ¬ a = k2 := fun hx => h2 (Eq.symm hx)
        simp [objSet, lookupFirstJ, h2, h3]
    · by_cases h2 : a = k2
      · subst h2
        have h3 : ¬ a = k := hak
        simp [objSet, lookupFirstJ, hak, h3]
      · simp [objSet, lookupFirstJ, hak, h2, ih]

theorem lookupFirstJ_foldl_not_mem (rest : List (Str × Json)) (k : Str)
    (h : ∀ kv ∈ rest, kv.1 ≠ k) : ∀ s : List (Str × Json),
    lookupFirstJ (rest.foldl (fun fs kv => objSet fs kv.1 kv.2) s) k = lookupFirstJ s k := by
  induction rest with
  | nil => intro s; rfl
  | cons kv rest' ih =>
    intro s
    rw [List.foldl_cons, ih (fun y hy => h y (List.mem_cons_of_mem kv hy))]
    rw [lookupFirstJ_objSet]
    exact if_neg (fun hx => h kv (List.mem_cons_self kv rest') hx.symm)

theorem lookupFirstJ_foldl_mem (rest : List (Str × Json)) (kv : Str × Json)
    (hnd : (rest.map Prod.fst).Nodup) (hm : kv ∈ rest) : ∀ s : List (Str × Json),
    lookupFirstJ (rest.foldl (fun fs kv2 => objSet fs kv2.1 kv2.2) s) kv.1 = some kv.2 := by
  induction rest with
  | nil => cases hm
  | cons a rest' ih =>
    intro s
    rw [List.map_cons, List.nodup_cons] at hnd
    rw [List.foldl_cons]
    rcases List.mem_cons.mp hm with rfl | hm2
    · have hnotin : ∀ y ∈ rest', y.1 ≠ kv.1 := by
        intro y hy heq
        exact hnd.1 (heq ▸ List.mem_map_of_mem Prod.fst hy)
      rw [lookupFirstJ_foldl_not_mem rest' kv.1 hnotin]
      rw [lookupFirstJ_objSet, if_pos rfl]
    · exact ih hnd.2 hm2 (objSet s a.1 a.2)

/-- Claim C10: the request shaper is a pure total function producing the
JSON content-type header, the bearer-auth header from the API key, method
POST, the cancellation token verbatim, and a JSON-encoded body whose
object carries the model, every pass-through parameter, the message list,
and `stream` set to `true`. -/
theorem c10_request_options (p : OpenAIStreamingParams) (messages : JsonArr)
    (signal : Option Nat)
    (hm : ∀ kv ∈ p.restOfApiParams, kv.1 ≠ "model".data)
    (hnd : (p.restOfApiParams.map Prod.fst).Nodup) :
    (getOpenAiRequestOptions p messages signal).method = "POST".data ∧
    (getOpenAiRequestOptions p messages signal).headers =
      [("Content-Type".data, "application/json".data),
       ("Authorization".data, "Bearer ".data ++ p.apiKey)] ∧
    (getOpenAiRequestOptions p messages signal).signal = signal ∧
    (getOpenAiRequestOptions p messages signal).body =
      jsonStringify (.obj (toJsonObj (requestBodyFields p messages))) ∧
    lookupFirstJ (requestBodyFields p messages) "model".data = some (.str p.model) ∧
    lookupFirstJ (requestBodyFields p messages) "messages".data = some (.arr messages) ∧
    lookupFirstJ (requestBodyFields p messages) "stream".data = some (.bool true) ∧
    (∀ kv ∈ p.restOfApiParams, kv.1 ≠ "messages".data → kv.1 ≠ "stream".data →
      lookupFirstJ (requestBodyFields p messages) kv.1 = some kv.2) := by
  refine ⟨rfl, rfl, rfl, rfl, ?_, ?_, ?_, ?_⟩
  · rw [requestBodyFields, lookupFirstJ_objSet, if_neg (by decide),
      lookupFirstJ_objSet, if_neg (by decide),
      lookupFirstJ_foldl_not_mem p.restOfApiParams "model".data hm]
    simp [objSet, lookupFirstJ]
  · rw [requestBodyFields, lookupFirstJ_objSet, if_neg (by decide),
      lookupFirstJ_objSet, if_pos rfl]
  · rw [requestBodyFields, lookupFirstJ_objSet, if_pos rfl]
  · intro kv hkv h1 h2
    rw [requestBodyFields, lookupFirstJ_objSet, if_neg h2, lookupFirstJ_objSet, if_neg h1,
      lookupFirstJ_foldl_mem p.restOfApiParams kv hnd hkv]

/-- Witness for C10 at concrete request parameters. -/
theorem c10_witness :
    (getOpenAiRequestOptions ⟨"sk-key".data, "gpt-4".data,
        [("temperature".data, .num "0.7".data)]⟩ (.cons .null .nil) (some 3)).method =
      "POST".data ∧
    lookupFirstJ (requestBodyFields ⟨"sk-key".data, "gpt-4".data,
        [("temperature".data, .num "0.7".data)]⟩ (.cons .null .nil)) "temperature".data =
      some (.num "0.7".data) :=
  ⟨(c10_request_options ⟨"sk-key".data, "gpt-4".data, [("temperature".data, .num "0.7".data)]⟩
      (.cons .null .nil) (some 3) (by decide) (by decide)).1,
    (c10_request_options ⟨"sk-key".data, "gpt-4".data, [("temperature".data, .num "0.7".data)]⟩
      (.cons .null .nil) (some 3) (by decide) (by decide)).2.2.2.2.2.2.2
      ("temperature".data, .num "0.7".data)
      (List.mem_cons_self ("temperature".data, Json.num "0.7".data) [])
      (by decide) (by decide)⟩
